import Mathlib

/-!
Shallow embedding of the progress-tracking pipeline of the gif-maker
command-line tool (Go), for checking its natural-language specification.

Go strings are modelled as List Char.  Go float64 values are modelled as
exact rationals (the arithmetic in scope is decimal parsing, sums and
quotients of small decimal values, where float64 rounding is not what the
claims are about).  Go int/int64 are modelled as Int (no claim in scope
depends on 64-bit overflow).
-/

namespace GifMaker

/-- Character class of the Go regexp token for a decimal digit (ASCII 0-9). -/
def isDigitCh (c : Char) : Bool := c.isDigit

/-- Character class of the Go regexp whitespace token: tab, newline, form
feed, carriage return and space. -/
def isSpaceCh (c : Char) : Bool :=
  c == ' ' || c == '\t' || c == '\n' || c == '\x0c' || c == '\r'

/-- Character class of the Go regexp word token: ASCII letters, digits and
underscore. -/
def isWordCh (c : Char) : Bool := c.isAlphanum || c == '_'

/-- Value of a decimal digit string, most significant digit first.
Mirrors what strconv parsing produces on an all-digit input. -/
def digitsToNat (l : List Char) : Nat :=
  l.foldl (fun a c => 10 * a + (c.toNat - 48)) 0

/-- Model of Go strings.Split with a one-character separator: splits the
string at every occurrence of the separator, keeping empty fields, and
yields at least one field. -/
def splitOnCh (l : List Char) (sep : Char) : List (List Char) :=
  match l with
  | [] => [[]]
  | c :: rest =>
    let r := splitOnCh rest sep
    if c = sep then [] :: r
    else
      match r with
      | h :: t => (c :: h) :: t
      | [] => [[c]]

/-- Model of fmt.Sscanf with verb %f on the inputs in scope (a non-negative
decimal numeral, optionally with a fractional part): leading whitespace is
skipped, a run of digits, an optional dot and a second run of digits are
consumed, and the scanned value is returned; when no digit is present the
scan fails and the target variable keeps its zero value, so 0 is returned. -/
def sscanfF (l : List Char) : ℚ :=
  let l := l.dropWhile isSpaceCh
  let p := l.span isDigitCh
  match p.2 with
  | '.' :: r2 =>
    let q := r2.span isDigitCh
    if p.1 = [] ∧ q.1 = [] then 0
    else (digitsToNat p.1 : ℚ) + (digitsToNat q.1 : ℚ) / 10 ^ q.1.length
  | _ => (digitsToNat p.1 : ℚ)

/-- Model of fmt.Sscanf with verb %d used only for its success/failure
result: the scan succeeds exactly when, after optional whitespace and an
optional sign, the input starts with a digit. -/
def sscanfDOk (l : List Char) : Bool :=
  match l.dropWhile isSpaceCh with
  | [] => false
  | '-' :: r => match r with
    | c :: _ => isDigitCh c
    | [] => false
  | '+' :: r => match r with
    | c :: _ => isDigitCh c
    | [] => false
  | c :: _ => isDigitCh c

/-- Embedding of timeToSeconds (cmd/convert.go): splits on the colon,
requires exactly three fields, scans hours, minutes and seconds with %f,
splits the seconds field on the first dot and scales the fractional part by
ten to the number of its characters (math.Pow10 of the fragment length);
any other shape leaves every scanned variable at zero. -/
def timeToSeconds (l : List Char) : ℚ :=
  match splitOnCh l ':' with
  | [p0, p1, p2] =>
    let h := sscanfF p0
    let m := sscanfF p1
    match splitOnCh p2 '.' with
    | s0 :: rest =>
      let s := sscanfF s0
      let msq : ℚ :=
        match rest with
        | m1 :: _ => sscanfF m1 / 10 ^ m1.length
        | [] => 0
      h * 3600 + m * 60 + s + msq
    | [] => h * 3600 + m * 60
  | _ => 0

/-- Embedding of ValidateTimeFormat (cmd/util.go): the empty string is
accepted; otherwise the string must split on colons into exactly three
fields, each scannable with %d, where the seconds field containing a dot
must instead split on dots into exactly two %d-scannable halves. -/
def ValidateTimeFormat (l : List Char) : Bool :=
  if l = [] then true
  else
    match splitOnCh l ':' with
    | [p0, p1, p2] =>
      sscanfDOk p0 && sscanfDOk p1 &&
        (if p2.contains '.' then
          match splitOnCh p2 '.' with
          | [a, b] => sscanfDOk a && sscanfDOk b
          | _ => false
        else sscanfDOk p2)
    | _ => false

example : timeToSeconds ("00:01:30.50".toList) = 181 / 2 := by with_unfolding_all rfl
example : timeToSeconds ("00:01:30.50".toList) ≠ 90 := by with_unfolding_all decide
example : ValidateTimeFormat ("abc".toList) = false := by decide
example : ValidateTimeFormat ("00:01:30.50".toList) = true := by decide
example : ValidateTimeFormat ("".toList) = true := by decide

/-!
Regexp layer.  Each extraction pattern of parseFFmpegOutput is embedded as
an at-this-position matcher together with a leftmost search (Go regexp
FindStringSubmatch returns the leftmost match, with greedy repetition
resolved exactly as the matchers below spell out for these patterns).
-/

/-- Matches a literal token at the head of the input, returning the rest. -/
def matchToken : List Char → List Char → Option (List Char)
  | [], rest => some rest
  | _ :: _, [] => none
  | p :: ps, c :: cs => if c = p then matchToken ps cs else none

/-- Matches the fixed-shape timestamp pattern of the progress regexps (two
digits, colon, two digits, colon, two digits, dot, two digits), returning
the matched characters and the rest of the input. -/
def matchStamp : List Char → Option (List Char × List Char)
  | a :: b :: c1 :: d :: e :: c2 :: f :: g :: c3 :: h :: i :: rest =>
    if isDigitCh a && isDigitCh b && c1 == ':' && isDigitCh d && isDigitCh e &&
        c2 == ':' && isDigitCh f && isDigitCh g && c3 == '.' && isDigitCh h && isDigitCh i then
      some ([a, b, c1, d, e, c2, f, g, c3, h, i], rest)
    else none
  | _ => none

/-- Leftmost search: applies the at-position matcher at every position of
the line, left to right, returning the first hit. -/
def findFirst {α : Type} (f : List Char → Option α) : List Char → Option α
  | [] => f []
  | c :: t =>
    match f (c :: t) with
    | some r => some r
    | none => findFirst f t

/-- At-position matcher for the pattern time=(dd:dd:dd.dd). -/
def atTime (l : List Char) : Option (List Char) := do
  let r ← matchToken ("time=".toList) l
  let (s, _) ← matchStamp r
  pure s

/-- At-position matcher for the pattern out_time=(dd:dd:dd.dd). -/
def atOutTime (l : List Char) : Option (List Char) := do
  let r ← matchToken ("out_time=".toList) l
  let (s, _) ← matchStamp r
  pure s

/-- At-position matcher for out_time_ms=(digits), one or more digits taken
greedily; the captured digit string is parsed with strconv.ParseInt, which
cannot fail on it (64-bit overflow is out of the claims' scope). -/
def atOutTimeMs (l : List Char) : Option Int := do
  let r ← matchToken ("out_time_ms=".toList) l
  let p := r.span isDigitCh
  if p.1 = [] then none else pure (digitsToNat p.1 : Int)

/-- At-position matcher for the pattern Duration: (dd:dd:dd.dd). -/
def atDuration (l : List Char) : Option (List Char) := do
  let r ← matchToken ("Duration: ".toList) l
  let (s, _) ← matchStamp r
  pure s

/-- Matches one-or-more digits, a dot, and one-or-more digits at the head
of the input, returning the exact decimal value and the rest. -/
def matchDecimal (l : List Char) : Option (ℚ × List Char) :=
  let p := l.span isDigitCh
  match p.1, p.2 with
  | _ :: _, '.' :: r2 =>
    let q := r2.span isDigitCh
    match q.1 with
    | [] => none
    | _ => some ((digitsToNat p.1 : ℚ) + (digitsToNat q.1 : ℚ) / ((10 ^ q.1.length : ℕ) : ℚ), q.2)
  | _, _ => none

/-- At-position matcher for duration=(digits.digits). -/
def atDurationSecs (l : List Char) : Option ℚ := do
  let r ← matchToken ("duration=".toList) l
  let (v, _) ← matchDecimal r
  pure v

/-- At-position matcher for speed=(digits.digits)x. -/
def atSpeed (l : List Char) : Option ℚ := do
  let r ← matchToken ("speed=".toList) l
  let (v, rest) ← matchDecimal r
  match rest with
  | 'x' :: _ => pure v
  | _ => none

/-- At-position matcher for size= followed by optional whitespace, a digit
group and a word group.  The digit repetition is greedy but must leave at
least one word character for the second group: when the character after the
digits is a word character the groups are the full digit run and the
following word run; otherwise the digit run cedes its last digit to the
word group (requiring at least two digits). -/
def atSize (l : List Char) : Option (Int × List Char) := do
  let r ← matchToken ("size=".toList) l
  let r := r.dropWhile isSpaceCh
  let p := r.span isDigitCh
  match p.1 with
  | [] => none
  | _ =>
    let w := p.2.span isWordCh
    match w.1 with
    | _ :: _ => some ((digitsToNat p.1 : Int), w.1)
    | [] =>
      match p.1.length with
      | 0 | 1 => none
      | _ + 2 => some ((digitsToNat (p.1.dropLast) : Int), [p.1.getLast!])

/-- At-position matcher for bitrate= followed by optional whitespace, a
decimal group, a word group and the literal /s, with the same greedy
digit/word boundary treatment as the size pattern applied to the decimal's
fractional digits. -/
def atBitrate (l : List Char) : Option (ℚ × List Char) := do
  let r ← matchToken ("bitrate=".toList) l
  let r := r.dropWhile isSpaceCh
  let p := r.span isDigitCh
  match p.1, p.2 with
  | _ :: _, '.' :: r2 =>
    let q := r2.span isDigitCh
    match q.1 with
    | [] => none
    | _ =>
      let w := q.2.span isWordCh
      match w.1 with
      | _ :: _ =>
        match w.2 with
        | '/' :: 's' :: _ =>
          some ((digitsToNat p.1 : ℚ) + (digitsToNat q.1 : ℚ) / ((10 ^ q.1.length : ℕ) : ℚ), w.1)
        | _ => none
      | [] =>
        match q.1.length, q.2 with
        | _ + 2, '/' :: 's' :: _ =>
          some ((digitsToNat p.1 : ℚ) +
              (digitsToNat q.1.dropLast : ℚ) / ((10 ^ q.1.dropLast.length : ℕ) : ℚ),
            [q.1.getLast!])
        | _, _ => none
  | _, _ => none

/-- At-position matcher for frame= followed by optional whitespace and a
greedy digit group. -/
def atFrame (l : List Char) : Option Int := do
  let r ← matchToken ("frame=".toList) l
  let r := r.dropWhile isSpaceCh
  let p := r.span isDigitCh
  if p.1 = [] then none else pure (digitsToNat p.1 : Int)

/-- At-position matcher for (digits.digits)%. -/
def atPercent (l : List Char) : Option ℚ := do
  let (v, rest) ← matchDecimal l
  match rest with
  | '%' :: _ => pure v
  | _ => none

/-- At-position matcher for (digits)x(digits), both repetitions greedy. -/
def atDimension (l : List Char) : Option (Int × Int) :=
  let p := l.span isDigitCh
  match p.1, p.2 with
  | _ :: _, 'x' :: r2 =>
    let q := r2.span isDigitCh
    match q.1 with
    | [] => none
    | _ => some ((digitsToNat p.1 : Int), (digitsToNat q.1 : Int))
  | _, _ => none

example : findFirst atTime ("time=00:00:05.00 out_time=00:00:10.00".toList) =
    some ("00:00:05.00".toList) := by decide
example : findFirst atTime ("out_time=00:00:10.00".toList) =
    some ("00:00:10.00".toList) := by decide
example : findFirst atOutTimeMs ("out_time_ms=5000000".toList) = some 5000000 := by decide
example : findFirst atSpeed ("speed= 2.35x".toList) = none := by decide
example : findFirst atSpeed ("frame= 10 speed=2.35x".toList) = some (47/20) := by
  with_unfolding_all rfl
example : findFirst atSize ("size=    1024kB".toList) = some (1024, "kB".toList) := by decide
example : findFirst atDimension ("  320x240".toList) = some (320, 240) := by decide
example : findFirst atDuration ("  Duration: 00:00:10.00, start".toList) =
    some ("00:00:10.00".toList) := by decide
example : findFirst atDurationSecs ("duration=10.0".toList) = some 10 := by
  with_unfolding_all rfl
example : findFirst atBitrate ("bitrate=  12.5kbits/s".toList) =
    some (25/2, "kbits".toList) := by with_unfolding_all rfl

/-!
Scanner / aggregator layer.  ProgressUpdate mirrors the struct of the same
name in cmd/convert.go; the loop body of parseFFmpegOutput is embedded as a
chain of per-pattern steps threading the accumulated update together with
the changed flag, in the exact order of the source.
-/

/-- Embedding of the ProgressUpdate struct (cmd/convert.go). -/
structure ProgressUpdate where
  CurrentTime : ℚ := 0
  TotalDuration : ℚ := 0
  ProcessingRate : ℚ := 0
  CurrentSize : Int := 0
  SizeUnit : List Char := []
  Bitrate : ℚ := 0
  BitrateUnit : List Char := []
  FramesProcessed : Int := 0
  Width : Int := 0
  Height : Int := 0
  deriving Repr, DecidableEq

/-- Go zero value of ProgressUpdate, the scanner's initial accumulator. -/
def initUpdate : ProgressUpdate := {}

/-- Duration block of the parse loop: only while the accumulated total
duration is still zero, try the Duration: timestamp form, then the
duration= numeric form (the latter only accepted when positive). -/
def stepDuration (line : List Char) (s : ProgressUpdate × Bool) : ProgressUpdate × Bool :=
  if s.1.TotalDuration = 0 then
    match findFirst atDuration line with
    | some stamp => ({ s.1 with TotalDuration := timeToSeconds stamp }, true)
    | none =>
      match findFirst atDurationSecs line with
      | some d => if 0 < d then ({ s.1 with TotalDuration := d }, true) else s
      | none => s
  else s

/-- Position block of the parse loop: the three forms are tried as an
if / else-if chain, time= first, then out_time=, then out_time_ms=, each
accepted only when the parsed value is positive. -/
def stepTime (line : List Char) (s : ProgressUpdate × Bool) : ProgressUpdate × Bool :=
  match findFirst atTime line with
  | some stamp =>
    let t := timeToSeconds stamp
    if 0 < t then ({ s.1 with CurrentTime := t }, true) else s
  | none =>
    match findFirst atOutTime line with
    | some stamp =>
      let t := timeToSeconds stamp
      if 0 < t then ({ s.1 with CurrentTime := t }, true) else s
    | none =>
      match findFirst atOutTimeMs line with
      | some ms => if 0 < ms then ({ s.1 with CurrentTime := (ms : ℚ) / 1000000 }, true) else s
      | none => s

/-- Percentage block: when a percentage is found, is positive, and the
total duration is known, the position is back-computed from it. -/
def stepPercent (line : List Char) (s : ProgressUpdate × Bool) : ProgressUpdate × Bool :=
  match findFirst atPercent line with
  | some p =>
    if 0 < p ∧ 0 < s.1.TotalDuration then
      ({ s.1 with CurrentTime := p / 100 * s.1.TotalDuration }, true)
    else s
  | none => s

/-- Speed block: a positive speed= sample overwrites the processing rate. -/
def stepSpeed (line : List Char) (s : ProgressUpdate × Bool) : ProgressUpdate × Bool :=
  match findFirst atSpeed line with
  | some v => if 0 < v then ({ s.1 with ProcessingRate := v }, true) else s
  | none => s

/-- Size block: a positive size= sample overwrites size and unit. -/
def stepSize (line : List Char) (s : ProgressUpdate × Bool) : ProgressUpdate × Bool :=
  match findFirst atSize line with
  | some (v, unit) =>
    if 0 < v then ({ s.1 with CurrentSize := v, SizeUnit := unit }, true) else s
  | none => s

/-- Bitrate block: a positive bitrate= sample overwrites bitrate and unit. -/
def stepBitrate (line : List Char) (s : ProgressUpdate × Bool) : ProgressUpdate × Bool :=
  match findFirst atBitrate line with
  | some (v, unit) =>
    if 0 < v then ({ s.1 with Bitrate := v, BitrateUnit := unit }, true) else s
  | none => s

/-- Frame block: a positive frame= sample overwrites the frame count. -/
def stepFrame (line : List Char) (s : ProgressUpdate × Bool) : ProgressUpdate × Bool :=
  match findFirst atFrame line with
  | some f => if 0 < f then ({ s.1 with FramesProcessed := f }, true) else s
  | none => s

/-- Dimension block: a width-x-height match with both sides positive
overwrites the dimensions. -/
def stepDimension (line : List Char) (s : ProgressUpdate × Bool) : ProgressUpdate × Bool :=
  match findFirst atDimension line with
  | some (w, h) =>
    if 0 < w ∧ 0 < h then ({ s.1 with Width := w, Height := h }, true) else s
  | none => s

/-- Embedding of one iteration of the scanner loop of parseFFmpegOutput
(cmd/convert.go): the pattern blocks applied in source order to the
accumulated update, returning the new update and whether anything changed
on this line. -/
def parseLine (u : ProgressUpdate) (line : List Char) : ProgressUpdate × Bool :=
  stepDimension line (stepFrame line (stepBitrate line (stepSize line
    (stepSpeed line (stepPercent line (stepTime line (stepDuration line (u, false))))))))

/-- The accumulated update after scanning a list of lines in order. -/
def parseLines (u : ProgressUpdate) (lines : List (List Char)) : ProgressUpdate :=
  lines.foldl (fun a line => (parseLine a line).1) u

example : (parseLine initUpdate ("duration=10.0".toList)).1.TotalDuration = 10 := by
  with_unfolding_all rfl
example :
    (parseLine { initUpdate with TotalDuration := 10 }
      ("time=00:00:20.00".toList)).1.CurrentTime = 20 := by
  with_unfolding_all rfl
example : (parseLine initUpdate
    ("time=00:00:05.00 out_time=00:00:10.00".toList)).1.CurrentTime = 5 := by
  with_unfolding_all rfl

/-!
Renderer / aggregator layer.  ProgressData mirrors the struct of the same
name; the update-consuming arm of the select loop in displayProgressBar is
embedded as displayApply, with the goroutine's local variables gathered in
DisplayLocals and wall-clock readings passed in explicitly.
-/

/-- Embedding of the ProgressData struct (cmd/convert.go); the start time
is a wall-clock instant, modelled as a rational timestamp. -/
structure ProgressData where
  StartTime : ℚ := 0
  CurrentTime : ℚ := 0
  TotalDuration : ℚ := 0
  ProcessingRate : ℚ := 0
  CurrentSize : Int := 0
  SizeUnit : List Char := []
  Bitrate : ℚ := 0
  BitrateUnit : List Char := []
  FramesProcessed : Int := 0
  Width : Int := 0
  Height : Int := 0
  AvgProcessRate : ℚ := 0
  Frames : Int := 0
  deriving Repr, DecidableEq

/-- Local variables of the displayProgressBar goroutine that persist
between received updates. -/
structure DisplayLocals where
  frameRates : List ℚ := []
  lastFrameCount : Int := 0
  lastFrameTime : ℚ := 0
  firstFrameTime : ℚ := 0
  firstFrameCount : Int := 0
  estimatedTotalFrames : Int := 0
  speedSum : ℚ := 0
  speedCount : Nat := 0
  lastFrame : Int := 0
  deriving Repr, DecidableEq

/-- Initial ProgressData built by runProgressTracking: start time recorded,
processing rate seeded at 1.0, everything else zero. -/
def initProgress (startTime : ℚ) : ProgressData :=
  { StartTime := startTime, ProcessingRate := 1 }

/-- Initial goroutine locals: empty rate window, both wall-clock anchors
taken at goroutine start. -/
def initLocals (now : ℚ) : DisplayLocals :=
  { lastFrameTime := now, firstFrameTime := now }

/-- Field-copy block at the top of the update-receiving arm of
displayProgressBar: the seven scalar fields of the update overwrite the
corresponding ProgressData fields unconditionally. -/
def dCopy (u : ProgressUpdate) (s : ProgressData × DisplayLocals) :
    ProgressData × DisplayLocals :=
  ({ s.1 with
      CurrentTime := u.CurrentTime
      TotalDuration := u.TotalDuration
      ProcessingRate := u.ProcessingRate
      CurrentSize := u.CurrentSize
      SizeUnit := u.SizeUnit
      Bitrate := u.Bitrate
      BitrateUnit := u.BitrateUnit },
    s.2)

/-- Frame block of the arm: on a positive frame count, record the first
observation once, copy the count and remember it as the last frame. -/
def dFrames (u : ProgressUpdate) (now : ℚ) (s : ProgressData × DisplayLocals) :
    ProgressData × DisplayLocals :=
  if 0 < u.FramesProcessed then
    (let loc := if s.2.firstFrameCount = 0 then
      { s.2 with firstFrameCount := u.FramesProcessed, firstFrameTime := now } else s.2
     ({ s.1 with FramesProcessed := u.FramesProcessed },
      { loc with lastFrame := u.FramesProcessed }))
  else s

/-- Width block of the arm: on a positive width, copy it, and when past
thirty frames estimate the total frame count once (frames times ten). -/
def dWidth (u : ProgressUpdate) (s : ProgressData × DisplayLocals) :
    ProgressData × DisplayLocals :=
  if 0 < u.Width then
    (({ s.1 with Width := u.Width } : ProgressData),
     if s.2.estimatedTotalFrames = 0 ∧ 30 < s.1.FramesProcessed then
       { s.2 with estimatedTotalFrames := s.1.FramesProcessed * 10 }
     else s.2)
  else s

/-- Height block of the arm. -/
def dHeight (u : ProgressUpdate) (s : ProgressData × DisplayLocals) :
    ProgressData × DisplayLocals :=
  if 0 < u.Height then ({ s.1 with Height := u.Height }, s.2) else s

/-- Speed block of the arm: a positive rate sample is accumulated into the
running sum and count, and the average is their quotient. -/
def dSpeed (u : ProgressUpdate) (s : ProgressData × DisplayLocals) :
    ProgressData × DisplayLocals :=
  if 0 < u.ProcessingRate then
    (let ss := s.2.speedSum + u.ProcessingRate
     let sc := s.2.speedCount + 1
     ({ s.1 with AvgProcessRate := ss / (sc : ℚ) },
      { s.2 with speedSum := ss, speedCount := sc }))
  else s

/-- Frame-rate block of the arm: when the frame count advanced past the
last recorded one and wall time advanced, append the instantaneous rate to
the window, trimming it to the last ten samples, and re-anchor the frame
counter and clock. -/
def dFps (now : ℚ) (s : ProgressData × DisplayLocals) : ProgressData × DisplayLocals :=
  if s.2.lastFrameCount < s.1.FramesProcessed then
    (let elapsed := now - s.2.lastFrameTime
     let loc :=
       if 0 < elapsed then
         (let fps := ((s.1.FramesProcessed - s.2.lastFrameCount : Int) : ℚ) / elapsed
          let fr := s.2.frameRates ++ [fps]
          { s.2 with frameRates := if 10 < fr.length then fr.drop 1 else fr })
       else s.2
     (s.1, { loc with lastFrameCount := s.1.FramesProcessed, lastFrameTime := now }))
  else s

/-- Final assignment of the arm: the summary frame count mirrors the last
observed frame count. -/
def dFinal (s : ProgressData × DisplayLocals) : ProgressData × DisplayLocals :=
  ({ s.1 with Frames := s.2.lastFrame }, s.2)

/-- Embedding of the update-receiving arm of displayProgressBar
(cmd/convert.go): the blocks above applied in source order; now is the
wall-clock reading of this arm. -/
def displayApply (d : ProgressData) (loc : DisplayLocals) (u : ProgressUpdate) (now : ℚ) :
    ProgressData × DisplayLocals :=
  dFinal (dFps now (dSpeed u (dHeight u (dWidth u (dFrames u now (dCopy u (d, loc)))))))

/-- Percentage computation of the known-total redraw arm of
displayProgressBar: position over total times one hundred, capped at one
hundred; zero when the total is unknown. -/
def computePercentage (d : ProgressData) : ℚ :=
  if 0 < d.TotalDuration then
    let p := d.CurrentTime / d.TotalDuration * 100
    if 100 < p then 100 else p
  else 0

/-- Go conversion of a float64 to int: truncation toward zero. -/
def goInt (q : ℚ) : Int := if 0 ≤ q then ⌊q⌋ else -⌊-q⌋

/-- Filled-glyph count of the progress bar in displayProgressBar: the
percentage over one hundred times the bar width, converted to int, then
clamped into the bar. -/
def barFill (percentage : ℚ) (barWidth : Int) : Int :=
  let p := goInt (percentage / 100 * (barWidth : ℚ))
  let p := if p < 0 then 0 else p
  if barWidth < p then barWidth else p

/-- Capacity of the hand-off channel created in convertVideo
(make(chan ProgressUpdate, 10)). -/
def progressChanCap : Nat := 10

/-- Embedding of the select-with-default send in parseFFmpegOutput: the
channel is modelled as the queue of buffered updates; a send on a full
buffer leaves the queue unchanged (the update is dropped), otherwise the
update is enqueued.  The function is total: the scanner step never waits. -/
def trySend (ch : List ProgressUpdate) (u : ProgressUpdate) : List ProgressUpdate :=
  if ch.length < progressChanCap then ch ++ [u] else ch

/-- Scanner-side state: the accumulated update, the wall-clock instant of
the last emission, and the channel buffer. -/
structure ScanState where
  update : ProgressUpdate := initUpdate
  lastLogTime : ℚ := 0
  chan : List ProgressUpdate := []

/-- Embedding of one full scanner iteration (parseFFmpegOutput): parse the
line, then emit the accumulated update when something changed, or when
frames have been seen and more than 200 milliseconds passed since the last
emission; the emission itself never blocks. -/
def scannerStep (st : ScanState) (line : List Char) (now : ℚ) : ScanState :=
  let r := parseLine st.update line
  if r.2 || (decide (0 < r.1.FramesProcessed) && decide ((1 : ℚ) / 5 < now - st.lastLogTime)) then
    { update := r.1, lastLogTime := now, chan := trySend st.chan r.1 }
  else { st with update := r.1 }

/-- One step of the full pipeline with synchronous delivery: the scanner
parses the line and, when it emits, the renderer consumes the update
(channel assumed not full); used to exercise end-to-end behaviour of one
line. -/
def pipeStep (u : ProgressUpdate) (d : ProgressData) (loc : DisplayLocals)
    (line : List Char) (now : ℚ) : ProgressUpdate × ProgressData × DisplayLocals :=
  let r := parseLine u line
  if r.2 then (r.1, displayApply d loc r.1 now) else (r.1, d, loc)

/-!
Orchestrator layer.  ConvertOptions mirrors the struct of the same name;
the argument-list construction of convertVideo is embedded verbatim, the
filter expression kept as an opaque string-valued function of the options;
the pure decision structure of the convert command's RunE and of
convertVideo up to the subprocess start is embedded with the two
filesystem/executable probes passed in as booleans.
-/

/-- Embedding of the ConvertOptions struct (cmd/convert.go). -/
structure ConvertOptions where
  Input : List Char := []
  Output : List Char := []
  FPS : Int := 10
  Start : List Char := []
  Duration : List Char := []
  Width : Int := 0
  Quality : Int := 90
  Interactive : Bool := false
  NoProgress : Bool := false

/-- Filter-chain expression built in convertVideo: fps filter, optional
scale filter, then the palette generation/application chain.  Its exact
text is irrelevant to the claims; the construction keeps the source's
shape. -/
def filterComplex (o : ConvertOptions) : List Char :=
  let f := "fps=".toList ++ (toString o.FPS).toList
  let f := if 0 < o.Width then
      f ++ ",scale=".toList ++ (toString o.Width).toList ++ ":-1:flags=lanczos".toList
    else f
  f ++ (",split[s0][s1];[s0]palettegen=max_colors=256:stats_mode=diff[p];" ++
    "[s1][p]paletteuse=dither=sierra2_4a:diff_mode=rectangle:alpha_threshold=128").toList

/-- The fixed global-option block prepended in convertVideo; threads is
the rendered GetOptimalThreads() value. -/
def globalArgs (threads : List Char) : List (List Char) :=
  ["-y".toList, "-loglevel".toList, "info".toList, "-threads".toList, threads,
    "-progress".toList, "pipe:1".toList, "-stats_period".toList, "0.1".toList]

/-- Embedding of the argument-list construction in convertVideo
(cmd/convert.go): the list starts as -i input, the global options are
prepended, then -ss and -t are appended when the start and duration strings
are non-empty, then the filter expression and the output path are appended. -/
def buildFFmpegArgs (o : ConvertOptions) (threads : List Char) : List (List Char) :=
  let args := ["-i".toList, o.Input]
  let args := globalArgs threads ++ args
  let args := if o.Start ≠ [] then args ++ ["-ss".toList, o.Start] else args
  let args := if o.Duration ≠ [] then args ++ ["-t".toList, o.Duration] else args
  let args := args ++ ["-filter_complex".toList, filterComplex o]
  args ++ [o.Output]

/-- Embedding of path/filepath Base for a slash-separated path: the empty
path yields a dot, trailing slashes are stripped, everything up to the last
slash is dropped, and an all-slash path yields a single slash. -/
def goBase (p : List Char) : List Char :=
  if p = [] then ['.']
  else
    let q := (p.reverse.dropWhile (· == '/')).reverse
    let r := (q.reverse.takeWhile (· != '/')).reverse
    if r = [] then ['/'] else r

/-- Embedding of path/filepath Ext: the suffix starting at the last dot in
the final slash-separated element, empty when there is none. -/
def goExt (p : List Char) : List Char :=
  let tailRev := p.reverse.takeWhile (· != '/')
  let afterRev := tailRev.takeWhile (· != '.')
  if afterRev.length = tailRev.length then [] else '.' :: afterRev.reverse

/-- Embedding of strings.TrimSuffix: drops the suffix when present. -/
def trimSuffixL (l suf : List Char) : List Char :=
  if suf.isSuffixOf l then l.take (l.length - suf.length) else l

/-- Default output path derivation of the convert command's RunE
(cmd/convert.go): base name of the input with its extension replaced by
.gif. -/
def defaultOutput (input : List Char) : List Char :=
  let inputBase := goBase input
  let inputExt := goExt inputBase
  trimSuffixL inputBase inputExt ++ ".gif".toList

/-- Failure cases of the convert command before any subprocess is started
(non-interactive path): missing input option, missing input file, or an
unresolvable/broken ffmpeg executable. -/
inductive ConvErr where
  | inputRequired
  | inputMissing
  | ffmpegUnavailable
  deriving Repr, DecidableEq

/-- Embedding of the pure decision structure of the convert command's RunE
followed by convertVideo up to the point the subprocess is started
(cmd/convert.go), for a non-interactive invocation: an empty input errors;
a missing input file errors (the filesystem probe is the inputExists
parameter); an empty output is defaulted from the input; an unavailable
executable errors (the ffmpegOK parameter covers checkFFmpegInstallation
and GetPath); otherwise the subprocess is started with exactly the built
argument list, which ok returns.  No step between option collection and
the subprocess start inspects the start or duration strings. -/
def runConvert (inputExists ffmpegOK : Bool) (o : ConvertOptions) (threads : List Char) :
    Except ConvErr (List (List Char)) :=
  if o.Input = [] then .error .inputRequired
  else if !inputExists then .error .inputMissing
  else
    let o := if o.Output = [] then { o with Output := defaultOutput o.Input } else o
    if !ffmpegOK then .error .ffmpegUnavailable
    else .ok (buildFFmpegArgs o threads)

example : goBase ("/videos/clip.mp4".toList) = "clip.mp4".toList := by decide
example : goExt ("clip.mp4".toList) = ".mp4".toList := by decide
example : defaultOutput ("/videos/clip.mp4".toList) = "clip.gif".toList := by decide
/-- A concrete option record with a start time, used by the clip-trimming
claims. -/
def sampleOpts : ConvertOptions :=
  { Input := "in.mp4".toList
    Output := "out.gif".toList
    Start := "00:00:01".toList }

example : (buildFFmpegArgs sampleOpts ("4".toList)).indexOf ("-ss".toList) = 11 := by decide
example : (buildFFmpegArgs sampleOpts ("4".toList)).indexOf ("-i".toList) = 9 := by decide

/-- An option record whose start time is not of the HH:MM:SS shape. -/
def badOpts : ConvertOptions :=
  { Input := "in.mp4".toList
    Output := "out.gif".toList
    Start := "abc".toList }

/-- A concrete option record with an empty start time but a non-empty
duration, used by the clip-trimming claims. -/
def durOpts : ConvertOptions :=
  { Input := "in.mp4".toList
    Output := "out.gif".toList
    Duration := "00:00:02".toList }

/-- Equality of ProgressData on every field except the running average of
processing-rate samples. -/
def eqExceptAvg (a b : ProgressData) : Prop :=
  a.StartTime = b.StartTime ∧ a.CurrentTime = b.CurrentTime ∧
  a.TotalDuration = b.TotalDuration ∧ a.ProcessingRate = b.ProcessingRate ∧
  a.CurrentSize = b.CurrentSize ∧ a.SizeUnit = b.SizeUnit ∧
  a.Bitrate = b.Bitrate ∧ a.BitrateUnit = b.BitrateUnit ∧
  a.FramesProcessed = b.FramesProcessed ∧ a.Width = b.Width ∧
  a.Height = b.Height ∧ a.Frames = b.Frames

/-- Pipeline state after a first speed sample of 2.0. -/
def cxA : ProgressUpdate × ProgressData × DisplayLocals :=
  pipeStep initUpdate (initProgress 0) (initLocals 0) ("speed=2.0x".toList) 0

/-- Pipeline state after a further speed sample of 4.0. -/
def cxB : ProgressUpdate × ProgressData × DisplayLocals :=
  pipeStep cxA.1 cxA.2.1 cxA.2.2 ("speed=4.0x".toList) 1

/-- Pipeline state after processing the 4.0 sample line a second time. -/
def cxC : ProgressUpdate × ProgressData × DisplayLocals :=
  pipeStep cxB.1 cxB.2.1 cxB.2.2 ("speed=4.0x".toList) 2

/-- Scanner state whose channel buffer is full. -/
def fullChanState : ScanState :=
  { update := initUpdate, lastLogTime := 0, chan := List.replicate 10 initUpdate }

/-- The accumulated update after a known total of ten seconds and a later
position observation of twenty seconds. -/
def overUpdate : ProgressUpdate :=
  (parseLine (parseLine initUpdate ("duration=10.0".toList)).1 ("time=00:00:20.00".toList)).1

/-!
Helper lemmas about the parser steps: which fields each pattern block can
touch.
-/

lemma stepDuration_TD_of_pos (line : List Char) (s : ProgressUpdate × Bool)
    (h : 0 < s.1.TotalDuration) : stepDuration line s = s := by
  unfold stepDuration
  rw [if_neg h.ne']

lemma stepDuration_CT (line : List Char) (s : ProgressUpdate × Bool) :
    (stepDuration line s).1.CurrentTime = s.1.CurrentTime := by
  unfold stepDuration
  repeat' split
  all_goals rfl

lemma stepTime_TD (line : List Char) (s : ProgressUpdate × Bool) :
    (stepTime line s).1.TotalDuration = s.1.TotalDuration := by
  unfold stepTime
  dsimp only
  repeat' split
  all_goals rfl

lemma stepPercent_TD (line : List Char) (s : ProgressUpdate × Bool) :
    (stepPercent line s).1.TotalDuration = s.1.TotalDuration := by
  unfold stepPercent
  repeat' split
  all_goals rfl

lemma stepSpeed_TD (line : List Char) (s : ProgressUpdate × Bool) :
    (stepSpeed line s).1.TotalDuration = s.1.TotalDuration := by
  unfold stepSpeed
  repeat' split
  all_goals rfl

lemma stepSize_TD (line : List Char) (s : ProgressUpdate × Bool) :
    (stepSize line s).1.TotalDuration = s.1.TotalDuration := by
  unfold stepSize
  repeat' split
  all_goals rfl

lemma stepBitrate_TD (line : List Char) (s : ProgressUpdate × Bool) :
    (stepBitrate line s).1.TotalDuration = s.1.TotalDuration := by
  unfold stepBitrate
  repeat' split
  all_goals rfl

lemma stepFrame_TD (line : List Char) (s : ProgressUpdate × Bool) :
    (stepFrame line s).1.TotalDuration = s.1.TotalDuration := by
  unfold stepFrame
  repeat' split
  all_goals rfl

lemma stepDimension_TD (line : List Char) (s : ProgressUpdate × Bool) :
    (stepDimension line s).1.TotalDuration = s.1.TotalDuration := by
  unfold stepDimension
  repeat' split
  all_goals rfl

lemma stepSpeed_CT (line : List Char) (s : ProgressUpdate × Bool) :
    (stepSpeed line s).1.CurrentTime = s.1.CurrentTime := by
  unfold stepSpeed
  repeat' split
  all_goals rfl

lemma stepSize_CT (line : List Char) (s : ProgressUpdate × Bool) :
    (stepSize line s).1.CurrentTime = s.1.CurrentTime := by
  unfold stepSize
  repeat' split
  all_goals rfl

lemma stepBitrate_CT (line : List Char) (s : ProgressUpdate × Bool) :
    (stepBitrate line s).1.CurrentTime = s.1.CurrentTime := by
  unfold stepBitrate
  repeat' split
  all_goals rfl

lemma stepFrame_CT (line : List Char) (s : ProgressUpdate × Bool) :
    (stepFrame line s).1.CurrentTime = s.1.CurrentTime := by
  unfold stepFrame
  repeat' split
  all_goals rfl

lemma stepDimension_CT (line : List Char) (s : ProgressUpdate × Bool) :
    (stepDimension line s).1.CurrentTime = s.1.CurrentTime := by
  unfold stepDimension
  repeat' split
  all_goals rfl

lemma stepPercent_of_none (line : List Char) (s : ProgressUpdate × Bool)
    (h : findFirst atPercent line = none) : stepPercent line s = s := by
  unfold stepPercent
  rw [h]

lemma stepTime_CT_of_match (line stamp : List Char) (s : ProgressUpdate × Bool)
    (hT : findFirst atTime line = some stamp) (hpos : 0 < timeToSeconds stamp) :
    (stepTime line s).1.CurrentTime = timeToSeconds stamp := by
  unfold stepTime
  rw [hT]
  simp only [if_pos hpos]

lemma parseLine_TD (u : ProgressUpdate) (line : List Char) (h : 0 < u.TotalDuration) :
    (parseLine u line).1.TotalDuration = u.TotalDuration := by
  unfold parseLine
  rw [stepDimension_TD, stepFrame_TD, stepBitrate_TD, stepSize_TD, stepSpeed_TD,
    stepPercent_TD, stepTime_TD, stepDuration_TD_of_pos _ _ h]

/-- C5 — the duration extractors are guarded by the total-duration field
being zero: once it is positive, no amount of further scanning changes it. -/
theorem C5_duration_one_shot (u : ProgressUpdate) (lines : List (List Char))
    (h : 0 < u.TotalDuration) :
    (parseLines u lines).TotalDuration = u.TotalDuration := by
  induction lines generalizing u with
  | nil => rfl
  | cons l ls ih =>
    have h1 : (parseLine u l).1.TotalDuration = u.TotalDuration := parseLine_TD u l h
    have h2 : 0 < (parseLine u l).1.TotalDuration := by rw [h1]; exact h
    calc (parseLines u (l :: ls)).TotalDuration
        = (parseLines (parseLine u l).1 ls).TotalDuration := rfl
      _ = (parseLine u l).1.TotalDuration := ih _ h2
      _ = u.TotalDuration := h1

/-- Witness for C5: a captured total of ten survives lines carrying both
duration forms. -/
theorem C5_duration_one_shot_witness :
    0 < ({ initUpdate with TotalDuration := 10 } : ProgressUpdate).TotalDuration ∧
    (parseLines { initUpdate with TotalDuration := 10 }
      [("Duration: 00:00:59.00".toList), ("duration=99.5".toList)]).TotalDuration = 10 :=
  ⟨by norm_num, C5_duration_one_shot _ _ (by norm_num)⟩

/-- C7 — the emission in the scanner loop is a select with a default arm on
a channel of capacity ten: a step never grows the buffer past capacity and
drops the update when the buffer is full, so the scanner never waits. -/
theorem C7_scanner_never_blocks (st : ScanState) (line : List Char) (now : ℚ)
    (h : st.chan.length ≤ progressChanCap) :
    (scannerStep st line now).chan.length ≤ progressChanCap ∧
    (st.chan.length = progressChanCap → (scannerStep st line now).chan = st.chan) := by
  unfold scannerStep trySend
  simp only [progressChanCap] at h ⊢
  constructor
  · split
    · split
      · simp only [List.length_append, List.length_cons, List.length_nil]
        omega
      · exact h
    · exact h
  · intro hfull
    split
    · split
      · omega
      · rfl
    · rfl

/-- Witness for C7: on a full buffer the step leaves the channel intact. -/
theorem C7_scanner_never_blocks_witness :
    fullChanState.chan.length ≤ progressChanCap ∧
    ((scannerStep fullChanState ("speed=2.0x".toList) 1).chan.length ≤ progressChanCap ∧
      (fullChanState.chan.length = progressChanCap →
        (scannerStep fullChanState ("speed=2.0x".toList) 1).chan = fullChanState.chan)) :=
  ⟨by decide, C7_scanner_never_blocks fullChanState ("speed=2.0x".toList) 1 (by decide)⟩

/-- C1 counterexample — after a captured total of ten seconds, a position
observation of twenty is stored as-is in the accumulated update and copied
as-is into the aggregate: nothing clamps it to the total. -/
theorem C1_counterexample :
    overUpdate.TotalDuration = 10 ∧ overUpdate.CurrentTime = 20 ∧
    ¬ overUpdate.CurrentTime ≤ overUpdate.TotalDuration ∧
    (displayApply (initProgress 0) (initLocals 0) overUpdate 1).1.CurrentTime = 20 ∧
    (displayApply (initProgress 0) (initLocals 0) overUpdate 1).1.TotalDuration = 10 := by
  refine ⟨?_, ?_, ?_, ?_, ?_⟩ <;> with_unfolding_all decide

/-- C1 amended — the stored position is unclamped, and the invariant is
restored only in the renderer: the percentage derived on a redraw tick is
always within zero and one hundred. -/
theorem C1_percentage_clamped (d : ProgressData) (h : 0 ≤ d.CurrentTime) :
    0 ≤ computePercentage d ∧ computePercentage d ≤ 100 := by
  unfold computePercentage
  dsimp only
  split_ifs with h1 h2
  · exact ⟨by norm_num, le_refl _⟩
  · exact ⟨mul_nonneg (div_nonneg h h1.le) (by norm_num), le_of_not_lt h2⟩
  · exact ⟨le_refl _, by norm_num⟩

/-- Witness for C1: the overshooting state renders as exactly one hundred
percent. -/
theorem C1_percentage_clamped_witness :
    0 ≤ ({ StartTime := 0, CurrentTime := 20, TotalDuration := 10 } : ProgressData).CurrentTime ∧
    (0 ≤ computePercentage { StartTime := 0, CurrentTime := 20, TotalDuration := 10 } ∧
      computePercentage { StartTime := 0, CurrentTime := 20, TotalDuration := 10 } ≤ 100) :=
  ⟨by norm_num, C1_percentage_clamped _ (by norm_num)⟩

/-- C3 counterexample — on a line carrying both a time= form (five seconds)
and a later out_time= form (ten seconds), the stored position is five, the
value of the first form in the chain, not ten, the value of the last
matching form in the line. -/
theorem C3_counterexample :
    (parseLine initUpdate ("time=00:00:05.00 out_time=00:00:10.00".toList)).1.CurrentTime = 5 ∧
    timeToSeconds ("00:00:10.00".toList) = 10 ∧ (5 : ℚ) ≠ 10 := by
  refine ⟨?_, ?_, ?_⟩ <;> with_unfolding_all decide

/-- C3 amended — the three position forms are an if / else-if chain in
fixed priority order: whenever the time= pattern matches somewhere in the
line with a positive value (its leftmost occurrence), that value is stored
and the out_time= and out_time_ms= extractors are never consulted; the
percentage back-computation is the only later writer of the position, so
its pattern is assumed absent. -/
theorem C3_first_form_priority (u : ProgressUpdate) (line stamp : List Char)
    (hT : findFirst atTime line = some stamp) (hpos : 0 < timeToSeconds stamp)
    (hP : findFirst atPercent line = none) :
    (parseLine u line).1.CurrentTime = timeToSeconds stamp := by
  unfold parseLine
  rw [stepDimension_CT, stepFrame_CT, stepBitrate_CT, stepSize_CT, stepSpeed_CT,
    stepPercent_of_none _ _ hP, stepTime_CT_of_match _ _ _ hT hpos]

/-- Witness for C3: the priority line of the counterexample instantiates
the amended statement. -/
theorem C3_first_form_priority_witness :
    findFirst atTime ("time=00:00:05.00 out_time=00:00:10.00".toList) =
      some ("00:00:05.00".toList) ∧
    0 < timeToSeconds ("00:00:05.00".toList) ∧
    findFirst atPercent ("time=00:00:05.00 out_time=00:00:10.00".toList) = none ∧
    (parseLine initUpdate ("time=00:00:05.00 out_time=00:00:10.00".toList)).1.CurrentTime =
      timeToSeconds ("00:00:05.00".toList) :=
  ⟨by decide, by with_unfolding_all decide, by decide,
    C3_first_form_priority initUpdate _ _ (by decide) (by with_unfolding_all decide) (by decide)⟩

/-- C8 counterexample — at ninety-nine percent on a bar of width ten the
code fills nine glyphs (int conversion truncates), while rounding would
fill ten. -/
theorem C8_counterexample :
    barFill 99 10 = 9 ∧ round ((99 : ℚ) / 100 * ((10 : Int) : ℚ)) = 10 ∧ (9 : Int) ≠ 10 := by
  refine ⟨?_, ?_, ?_⟩
  · with_unfolding_all decide
  · rw [round_eq]; with_unfolding_all decide
  · decide

/-- C8 amended — the filled-glyph count is the floor (Go int conversion,
truncation toward zero, here of a non-negative value) of barWidth times
percentage over one hundred, and lies within zero and barWidth whenever the
percentage is within zero and one hundred and the bar width is positive. -/
theorem C8_bar_fill_truncated (p : ℚ) (W : Int) (h0 : 0 ≤ p) (h100 : p ≤ 100) (hW : 0 < W) :
    barFill p W = ⌊p / 100 * (W : ℚ)⌋ ∧ 0 ≤ barFill p W ∧ barFill p W ≤ W := by
  have hWq : (0 : ℚ) ≤ (W : ℚ) := by exact_mod_cast hW.le
  have harg : 0 ≤ p / 100 * (W : ℚ) := mul_nonneg (div_nonneg h0 (by norm_num)) hWq
  have hfl0 : 0 ≤ ⌊p / 100 * (W : ℚ)⌋ := Int.floor_nonneg.mpr harg
  have hle : p / 100 * (W : ℚ) ≤ (W : ℚ) := by
    have h1 : p / 100 ≤ 1 := (div_le_one (by norm_num : (0 : ℚ) < 100)).mpr h100
    calc p / 100 * (W : ℚ) ≤ 1 * (W : ℚ) := mul_le_mul_of_nonneg_right h1 hWq
      _ = (W : ℚ) := one_mul _
  have hflW : ⌊p / 100 * (W : ℚ)⌋ ≤ W := by
    have h2 := Int.floor_le_floor hle
    rwa [Int.floor_intCast] at h2
  unfold barFill goInt
  dsimp only
  rw [if_pos harg, if_neg (not_lt.mpr hfl0), if_neg (not_lt.mpr hflW)]
  exact ⟨rfl, hfl0, hflW⟩

/-- Witness for C8: fifty-five percent of a width-ten bar fills five
glyphs. -/
theorem C8_bar_fill_truncated_witness :
    (0 : ℚ) ≤ 55 ∧ (55 : ℚ) ≤ 100 ∧ (0 : Int) < 10 ∧
    (barFill 55 10 = ⌊(55 : ℚ) / 100 * ((10 : Int) : ℚ)⌋ ∧
      0 ≤ barFill 55 10 ∧ barFill 55 10 ≤ 10) :=
  ⟨by norm_num, by norm_num, by norm_num,
    C8_bar_fill_truncated 55 10 (by norm_num) (by norm_num) (by norm_num)⟩

lemma buildFFmpegArgs_decomp (o : ConvertOptions) (t : List Char) :
    buildFFmpegArgs o t =
      globalArgs t ++ ["-i".toList, o.Input] ++
      (if o.Start ≠ [] then ["-ss".toList, o.Start] else []) ++
      (if o.Duration ≠ [] then ["-t".toList, o.Duration] else []) ++
      ["-filter_complex".toList, filterComplex o, o.Output] := by
  unfold buildFFmpegArgs
  dsimp only
  split_ifs <;> simp [List.append_assoc]

/-- C2 counterexample — with a start time set, the built argument list has
-i at index nine and -ss at index eleven: the clip flag follows the input
flag instead of preceding it. -/
theorem C2_counterexample :
    (buildFFmpegArgs sampleOpts ("4".toList)).indexOf ("-i".toList) = 9 ∧
    (buildFFmpegArgs sampleOpts ("4".toList)).indexOf ("-ss".toList) = 11 ∧
    ¬ (buildFFmpegArgs sampleOpts ("4".toList)).indexOf ("-ss".toList) <
        (buildFFmpegArgs sampleOpts ("4".toList)).indexOf ("-i".toList) := by
  refine ⟨by decide, by decide, by decide⟩

/-- C2 amended — for every configuration with a non-empty start time or a
non-empty duration, the clip-trimming flags that are present sit directly
after the -i input pair: -ss start exactly when the start string is
non-empty, followed by -t duration exactly when the duration string is
non-empty, with nothing between the input pair and these flags. -/
theorem C2_clip_flags_after_input (o : ConvertOptions) (t : List Char)
    (h : o.Start ≠ [] ∨ o.Duration ≠ []) :
    ∃ pre post, buildFFmpegArgs o t =
      pre ++ "-i".toList :: o.Input ::
        ((if o.Start ≠ [] then ["-ss".toList, o.Start] else []) ++
          ((if o.Duration ≠ [] then ["-t".toList, o.Duration] else []) ++ post)) := by
  refine ⟨globalArgs t, ["-filter_complex".toList, filterComplex o, o.Output], ?_⟩
  rw [buildFFmpegArgs_decomp]
  simp [List.append_assoc]

/-- Witness for C2: a duration-only configuration instantiates the
decomposition, with -t duration directly after the input pair. -/
theorem C2_clip_flags_after_input_witness :
    (durOpts.Start ≠ [] ∨ durOpts.Duration ≠ []) ∧
    ∃ pre post, buildFFmpegArgs durOpts ("4".toList) =
      pre ++ "-i".toList :: durOpts.Input ::
        ((if durOpts.Start ≠ [] then ["-ss".toList, durOpts.Start] else []) ++
          ((if durOpts.Duration ≠ [] then ["-t".toList, durOpts.Duration] else []) ++ post)) :=
  ⟨Or.inr (by decide), C2_clip_flags_after_input durOpts ("4".toList) (Or.inr (by decide))⟩

/-- C6 counterexample — a start time that fails the repository's own
time-format validator still reaches the subprocess: the command path
returns the built argument list (subprocess started) with the malformed
string passed verbatim, instead of failing with a validation error. -/
theorem C6_counterexample :
    ValidateTimeFormat badOpts.Start = false ∧
    runConvert true true badOpts ("4".toList) = .ok (buildFFmpegArgs badOpts ("4".toList)) ∧
    badOpts.Start ∈ buildFFmpegArgs badOpts ("4".toList) := by
  refine ⟨by decide, by rfl, by decide⟩

/-- C6 amended — between option collection and the subprocess start no step
inspects the start or duration strings: whenever the input option is
non-empty, the input file exists and the executable resolves, the command
starts the subprocess, and a non-empty start string appears verbatim in its
argument list (malformed strings surface only as a subprocess failure). -/
theorem C6_no_time_validation (o : ConvertOptions) (t : List Char) (h : o.Input ≠ []) :
    ∃ args, runConvert true true o t = .ok args ∧ (o.Start ≠ [] → o.Start ∈ args) := by
  refine ⟨buildFFmpegArgs
    (if o.Output = [] then { o with Output := defaultOutput o.Input } else o) t, ?_, ?_⟩
  · unfold runConvert
    rw [if_neg h]
    simp
  · intro hs
    have hstart : (if o.Output = [] then
        ({ o with Output := defaultOutput o.Input } : ConvertOptions) else o).Start = o.Start := by
      split <;> rfl
    rw [buildFFmpegArgs_decomp, hstart, if_pos hs]
    simp

/-- Witness for C6: the malformed-start options instantiate the amended
statement. -/
theorem C6_no_time_validation_witness :
    badOpts.Input ≠ [] ∧
    ∃ args, runConvert true true badOpts ("4".toList) = .ok args ∧
      (badOpts.Start ≠ [] → badOpts.Start ∈ args) :=
  ⟨by decide, C6_no_time_validation badOpts ("4".toList) (by decide)⟩

/-!
List scanning helpers for the path and numeric parsing claims.
-/

lemma takeWhile_sat_all {α : Type} (p : α → Bool) (l : List α) (h : ∀ x ∈ l, p x = true) :
    l.takeWhile p = l := by
  induction l with
  | nil => rfl
  | cons a as ih =>
    rw [List.takeWhile_cons, if_pos (h a (List.mem_cons_self a as)),
      ih (fun x hx => h x (List.mem_cons_of_mem a hx))]

lemma dropWhile_sat_all {α : Type} (p : α → Bool) (l : List α) (h : ∀ x ∈ l, p x = true) :
    l.dropWhile p = [] := by
  induction l with
  | nil => rfl
  | cons a as ih =>
    rw [List.dropWhile_cons, if_pos (h a (List.mem_cons_self a as))]
    exact ih (fun x hx => h x (List.mem_cons_of_mem a hx))

lemma takeWhile_append_sat {α : Type} (p : α → Bool) (xs ys : List α)
    (h : ∀ x ∈ xs, p x = true) :
    (xs ++ ys).takeWhile p = xs ++ ys.takeWhile p := by
  induction xs with
  | nil => simp
  | cons a as ih =>
    rw [List.cons_append, List.takeWhile_cons, if_pos (h a (List.mem_cons_self a as)),
      ih (fun x hx => h x (List.mem_cons_of_mem a hx)), List.cons_append]

lemma goBase_concat (dir name : List Char) (h1 : name ≠ []) (h2 : '/' ∉ name) :
    goBase (dir ++ '/' :: name) = name := by
  have hall : ∀ x ∈ name.reverse, (x != '/') = true :=
    fun x hx => bne_iff_ne.mpr (fun e => h2 (e ▸ (List.mem_reverse.mp hx)))
  cases hc : name.reverse with
  | nil => exact absurd (by simpa using congrArg List.reverse hc) h1
  | cons c cs =>
    rw [hc] at hall
    have hcmem : c ∈ name := List.mem_reverse.mp (hc ▸ List.mem_cons_self c cs)
    have hcne : (c == '/') = false := beq_eq_false_iff_ne.mpr (fun e => h2 (e ▸ hcmem))
    have hne : dir ++ '/' :: name ≠ [] := by simp
    have e1 : (dir ++ '/' :: name).reverse = c :: (cs ++ '/' :: dir.reverse) := by
      rw [List.reverse_append, List.reverse_cons, hc, List.append_assoc, List.singleton_append,
        List.cons_append]
    have e2 : (c :: (cs ++ '/' :: dir.reverse)).dropWhile (· == '/') =
        c :: (cs ++ '/' :: dir.reverse) := by
      rw [List.dropWhile_cons, if_neg (by simp [hcne])]
    have e3 : (c :: (cs ++ '/' :: dir.reverse)).takeWhile (· != '/') = c :: cs := by
      rw [← List.cons_append, takeWhile_append_sat _ _ _ hall, List.takeWhile_cons]
      simp
    have hrr : (c :: cs).reverse = name := by rw [← hc, List.reverse_reverse]
    unfold goBase
    rw [if_neg hne]
    dsimp only
    rw [e1, e2, List.reverse_reverse, e3, hrr, if_neg h1]

lemma goBase_self (name : List Char) (h1 : name ≠ []) (h2 : '/' ∉ name) :
    goBase name = name := by
  have hall : ∀ x ∈ name.reverse, (x != '/') = true :=
    fun x hx => bne_iff_ne.mpr (fun e => h2 (e ▸ (List.mem_reverse.mp hx)))
  cases hc : name.reverse with
  | nil => exact absurd (by simpa using congrArg List.reverse hc) h1
  | cons c cs =>
    rw [hc] at hall
    have hcmem : c ∈ name := List.mem_reverse.mp (hc ▸ List.mem_cons_self c cs)
    have hcne : (c == '/') = false := beq_eq_false_iff_ne.mpr (fun e => h2 (e ▸ hcmem))
    have e2 : (c :: cs).dropWhile (· == '/') = c :: cs := by
      rw [List.dropWhile_cons, if_neg (by simp [hcne])]
    have e3 : (c :: cs).takeWhile (· != '/') = c :: cs := takeWhile_sat_all _ _ hall
    have hrr : (c :: cs).reverse = name := by rw [← hc, List.reverse_reverse]
    unfold goBase
    rw [if_neg h1]
    dsimp only
    rw [hc, e2, List.reverse_reverse, e3, hrr, if_neg h1]

/-- C10 — when the output option is empty, the derived output path is the
input's base name with its extension replaced by .gif: the directory
component is discarded entirely (the result contains no separator), so the
file is created relative to the working directory. -/
theorem C10_default_output (dir name : List Char) (h1 : name ≠ []) (h2 : '/' ∉ name) :
    defaultOutput (dir ++ '/' :: name) = trimSuffixL name (goExt name) ++ ".gif".toList ∧
    '/' ∉ defaultOutput (dir ++ '/' :: name) := by
  have hbase : defaultOutput (dir ++ '/' :: name) =
      trimSuffixL name (goExt name) ++ ".gif".toList := by
    unfold defaultOutput
    rw [goBase_concat dir name h1 h2]
  refine ⟨hbase, ?_⟩
  rw [hbase]
  intro hmem
  rcases List.mem_append.mp hmem with hm | hm
  · unfold trimSuffixL at hm
    split_ifs at hm
    · exact h2 (List.take_subset _ _ hm)
    · exact h2 hm
  · exact absurd hm (by decide)

/-- Witness for C10: videos/clip.mp4 maps to clip.gif. -/
theorem C10_default_output_witness :
    "clip.mp4".toList ≠ [] ∧ '/' ∉ "clip.mp4".toList ∧
    (defaultOutput ("videos".toList ++ '/' :: "clip.mp4".toList) =
        trimSuffixL ("clip.mp4".toList) (goExt ("clip.mp4".toList)) ++ ".gif".toList ∧
      '/' ∉ defaultOutput ("videos".toList ++ '/' :: "clip.mp4".toList)) :=
  ⟨by decide, by decide, C10_default_output ("videos".toList) ("clip.mp4".toList)
    (by decide) (by decide)⟩

/-!
Digit-string facts for the time parser claim.
-/

lemma digit_ne_of_not_digit {c x : Char} (hd : isDigitCh c = true) (hx : isDigitCh x = false) :
    c ≠ x := by
  intro e
  rw [e, hx] at hd
  exact Bool.false_ne_true hd

lemma digit_not_space {c : Char} (hd : isDigitCh c = true) : isSpaceCh c = false := by
  have e1 : c ≠ ' ' := digit_ne_of_not_digit hd (by decide)
  have e2 : c ≠ '\t' := digit_ne_of_not_digit hd (by decide)
  have e3 : c ≠ '\n' := digit_ne_of_not_digit hd (by decide)
  have e4 : c ≠ '\x0c' := digit_ne_of_not_digit hd (by decide)
  have e5 : c ≠ '\r' := digit_ne_of_not_digit hd (by decide)
  simp [isSpaceCh, e1, e2, e3, e4, e5]

lemma digit_ne_colon {c : Char} (hd : isDigitCh c = true) : c ≠ ':' :=
  digit_ne_of_not_digit hd (by decide)

lemma digit_ne_dot {c : Char} (hd : isDigitCh c = true) : c ≠ '.' :=
  digit_ne_of_not_digit hd (by decide)

lemma span_all_digits (l : List Char) (h : ∀ c ∈ l, isDigitCh c = true) :
    l.span isDigitCh = (l, []) := by
  rw [List.span_eq_take_drop, takeWhile_sat_all _ _ h, dropWhile_sat_all _ _ h]

lemma sscanfF_digits (l : List Char) (h : ∀ c ∈ l, isDigitCh c = true) :
    sscanfF l = (digitsToNat l : ℚ) := by
  have hdrop : l.dropWhile isSpaceCh = l := by
    cases l with
    | nil => rfl
    | cons a as =>
      rw [List.dropWhile_cons, if_neg (by simp [digit_not_space (h a (List.mem_cons_self a as))])]
  unfold sscanfF
  dsimp only
  rw [hdrop, span_all_digits l h]

lemma splitOnCh_nosep (xs : List Char) (sep : Char) (h : ∀ c ∈ xs, c ≠ sep) :
    splitOnCh xs sep = [xs] := by
  induction xs with
  | nil => rfl
  | cons a as ih =>
    have ha := h a (List.mem_cons_self a as)
    have ih2 := ih (fun x hx => h x (List.mem_cons_of_mem a hx))
    simp [splitOnCh, ha, ih2]

lemma splitOnCh_append (xs rest : List Char) (sep : Char) (h : ∀ c ∈ xs, c ≠ sep) :
    splitOnCh (xs ++ sep :: rest) sep = xs :: splitOnCh rest sep := by
  induction xs with
  | nil => simp [splitOnCh]
  | cons a as ih =>
    have ha := h a (List.mem_cons_self a as)
    have ih2 := ih (fun x hx => h x (List.mem_cons_of_mem a hx))
    simp [splitOnCh, ha, ih2]

/-- C4 — on every well-formed HH:MM:SS or HH:MM:SS.ms string (digit groups
of any width), the time parser returns hours times thirty-six hundred plus
minutes times sixty plus seconds, plus the fractional digits scaled by ten
to their count. -/
theorem C4_timeToSeconds_correct (hs ms ss fs : List Char)
    (hh : ∀ c ∈ hs, isDigitCh c = true) (hm : ∀ c ∈ ms, isDigitCh c = true)
    (hse : ∀ c ∈ ss, isDigitCh c = true) (hf : ∀ c ∈ fs, isDigitCh c = true) :
    timeToSeconds (hs ++ ':' :: (ms ++ ':' :: ss)) =
      (digitsToNat hs : ℚ) * 3600 + (digitsToNat ms : ℚ) * 60 + (digitsToNat ss : ℚ) ∧
    timeToSeconds (hs ++ ':' :: (ms ++ ':' :: (ss ++ '.' :: fs))) =
      (digitsToNat hs : ℚ) * 3600 + (digitsToNat ms : ℚ) * 60 + (digitsToNat ss : ℚ) +
        (digitsToNat fs : ℚ) / 10 ^ fs.length := by
  constructor
  · have h1 : splitOnCh (hs ++ ':' :: (ms ++ ':' :: ss)) ':' = [hs, ms, ss] := by
      rw [splitOnCh_append _ _ _ (fun c hc => digit_ne_colon (hh c hc)),
        splitOnCh_append _ _ _ (fun c hc => digit_ne_colon (hm c hc)),
        splitOnCh_nosep _ _ (fun c hc => digit_ne_colon (hse c hc))]
    have h2 : splitOnCh ss '.' = [ss] :=
      splitOnCh_nosep _ _ (fun c hc => digit_ne_dot (hse c hc))
    unfold timeToSeconds
    rw [h1]
    dsimp only
    rw [h2]
    dsimp only
    rw [sscanfF_digits hs hh, sscanfF_digits ms hm, sscanfF_digits ss hse]
    ring
  · have hmix : ∀ c ∈ ss ++ '.' :: fs, c ≠ ':' := by
      intro c hc
      rcases List.mem_append.mp hc with hcs | hcf
      · exact digit_ne_colon (hse c hcs)
      · rcases List.mem_cons.mp hcf with e | hcf2
        · rw [e]; decide
        · exact digit_ne_colon (hf c hcf2)
    have h1 : splitOnCh (hs ++ ':' :: (ms ++ ':' :: (ss ++ '.' :: fs))) ':' =
        [hs, ms, ss ++ '.' :: fs] := by
      rw [splitOnCh_append _ _ _ (fun c hc => digit_ne_colon (hh c hc)),
        splitOnCh_append _ _ _ (fun c hc => digit_ne_colon (hm c hc)),
        splitOnCh_nosep _ _ hmix]
    have h2 : splitOnCh (ss ++ '.' :: fs) '.' = [ss, fs] := by
      rw [splitOnCh_append _ _ _ (fun c hc => digit_ne_dot (hse c hc)),
        splitOnCh_nosep _ _ (fun c hc => digit_ne_dot (hf c hc))]
    unfold timeToSeconds
    rw [h1]
    dsimp only
    rw [h2]
    dsimp only
    rw [sscanfF_digits hs hh, sscanfF_digits ms hm, sscanfF_digits ss hse,
      sscanfF_digits fs hf]

/-- Witness for C4: the spec's own example evaluates to ninety and a half
seconds. -/
theorem C4_timeToSeconds_correct_witness :
    (∀ c ∈ "00".toList, isDigitCh c = true) ∧ (∀ c ∈ "01".toList, isDigitCh c = true) ∧
    (∀ c ∈ "30".toList, isDigitCh c = true) ∧ (∀ c ∈ "50".toList, isDigitCh c = true) ∧
    timeToSeconds ("00:01:30.50".toList) = 181 / 2 := by
  refine ⟨by decide, by decide, by decide, by decide, ?_⟩
  have h := (C4_timeToSeconds_correct ("00".toList) ("01".toList) ("30".toList) ("50".toList)
    (by decide) (by decide) (by decide) (by decide)).2
  have he : "00".toList ++ ':' :: ("01".toList ++ ':' :: ("30".toList ++ '.' :: "50".toList)) =
      "00:01:30.50".toList := by decide
  rw [he] at h
  rw [h]
  with_unfolding_all decide

/-!
Per-block equations of the renderer arm, each over an opaque intermediate
state, composed into projection facts about a whole update; used by the
repetition claim.
-/

lemma dCopy_eq (u : ProgressUpdate) (s : ProgressData × DisplayLocals) :
    dCopy u s =
      ({ s.1 with
          CurrentTime := u.CurrentTime
          TotalDuration := u.TotalDuration
          ProcessingRate := u.ProcessingRate
          CurrentSize := u.CurrentSize
          SizeUnit := u.SizeUnit
          Bitrate := u.Bitrate
          BitrateUnit := u.BitrateUnit },
        s.2) := rfl

lemma dFinal_eq (s : ProgressData × DisplayLocals) :
    dFinal s = ({ s.1 with Frames := s.2.lastFrame }, s.2) := rfl

lemma dFrames_1_eq (u : ProgressUpdate) (now : ℚ) (s : ProgressData × DisplayLocals) :
    (dFrames u now s).1 =
      { s.1 with FramesProcessed :=
          if 0 < u.FramesProcessed then u.FramesProcessed else s.1.FramesProcessed } := by
  unfold dFrames
  split_ifs <;> rfl

lemma dFrames_2_frameRates (u : ProgressUpdate) (now : ℚ) (s : ProgressData × DisplayLocals) :
    (dFrames u now s).2.frameRates = s.2.frameRates := by
  unfold dFrames
  split_ifs <;> rfl

lemma dFrames_2_lastFrameCount (u : ProgressUpdate) (now : ℚ)
    (s : ProgressData × DisplayLocals) :
    (dFrames u now s).2.lastFrameCount = s.2.lastFrameCount := by
  unfold dFrames
  split_ifs <;> rfl

lemma dFrames_2_lastFrame (u : ProgressUpdate) (now : ℚ) (s : ProgressData × DisplayLocals) :
    (dFrames u now s).2.lastFrame =
      if 0 < u.FramesProcessed then u.FramesProcessed else s.2.lastFrame := by
  unfold dFrames
  split_ifs <;> rfl

lemma dWidth_1_eq (u : ProgressUpdate) (s : ProgressData × DisplayLocals) :
    (dWidth u s).1 = { s.1 with Width := if 0 < u.Width then u.Width else s.1.Width } := by
  unfold dWidth
  split_ifs <;> rfl

lemma dWidth_2_frameRates (u : ProgressUpdate) (s : ProgressData × DisplayLocals) :
    (dWidth u s).2.frameRates = s.2.frameRates := by
  unfold dWidth
  split_ifs <;> rfl

lemma dWidth_2_lastFrameCount (u : ProgressUpdate) (s : ProgressData × DisplayLocals) :
    (dWidth u s).2.lastFrameCount = s.2.lastFrameCount := by
  unfold dWidth
  split_ifs <;> rfl

lemma dWidth_2_lastFrame (u : ProgressUpdate) (s : ProgressData × DisplayLocals) :
    (dWidth u s).2.lastFrame = s.2.lastFrame := by
  unfold dWidth
  split_ifs <;> rfl

lemma dHeight_1_eq (u : ProgressUpdate) (s : ProgressData × DisplayLocals) :
    (dHeight u s).1 = { s.1 with Height := if 0 < u.Height then u.Height else s.1.Height } := by
  unfold dHeight
  split_ifs <;> rfl

lemma dHeight_2 (u : ProgressUpdate) (s : ProgressData × DisplayLocals) :
    (dHeight u s).2 = s.2 := by
  unfold dHeight
  split_ifs <;> rfl

lemma dSpeed_1_eq (u : ProgressUpdate) (s : ProgressData × DisplayLocals) :
    (dSpeed u s).1 =
      { s.1 with AvgProcessRate :=
          if 0 < u.ProcessingRate then
            (s.2.speedSum + u.ProcessingRate) / ((s.2.speedCount + 1 : ℕ) : ℚ)
          else s.1.AvgProcessRate } := by
  unfold dSpeed
  split_ifs <;> rfl

lemma dSpeed_2_frameRates (u : ProgressUpdate) (s : ProgressData × DisplayLocals) :
    (dSpeed u s).2.frameRates = s.2.frameRates := by
  unfold dSpeed
  split_ifs <;> rfl

lemma dSpeed_2_lastFrameCount (u : ProgressUpdate) (s : ProgressData × DisplayLocals) :
    (dSpeed u s).2.lastFrameCount = s.2.lastFrameCount := by
  unfold dSpeed
  split_ifs <;> rfl

lemma dSpeed_2_lastFrame (u : ProgressUpdate) (s : ProgressData × DisplayLocals) :
    (dSpeed u s).2.lastFrame = s.2.lastFrame := by
  unfold dSpeed
  split_ifs <;> rfl

lemma dFps_fst (now : ℚ) (s : ProgressData × DisplayLocals) : (dFps now s).1 = s.1 := by
  unfold dFps
  split_ifs <;> rfl

lemma dFps_2_lastFrame (now : ℚ) (s : ProgressData × DisplayLocals) :
    (dFps now s).2.lastFrame = s.2.lastFrame := by
  unfold dFps
  dsimp only
  split_ifs <;> rfl

lemma dFps_2_lfc_ge (now : ℚ) (s : ProgressData × DisplayLocals) :
    s.1.FramesProcessed ≤ (dFps now s).2.lastFrameCount := by
  unfold dFps
  dsimp only
  split_ifs with h1 <;> first | omega | (dsimp only; omega)

lemma dFps_of_le (now : ℚ) (s : ProgressData × DisplayLocals)
    (h : s.1.FramesProcessed ≤ s.2.lastFrameCount) : dFps now s = s := by
  unfold dFps
  rw [if_neg (not_lt.mpr h)]

lemma dA_copy_fields (d : ProgressData) (loc : DisplayLocals) (u : ProgressUpdate) (now : ℚ) :
    (displayApply d loc u now).1.StartTime = d.StartTime ∧
    (displayApply d loc u now).1.CurrentTime = u.CurrentTime ∧
    (displayApply d loc u now).1.TotalDuration = u.TotalDuration ∧
    (displayApply d loc u now).1.ProcessingRate = u.ProcessingRate ∧
    (displayApply d loc u now).1.CurrentSize = u.CurrentSize ∧
    (displayApply d loc u now).1.SizeUnit = u.SizeUnit ∧
    (displayApply d loc u now).1.Bitrate = u.Bitrate ∧
    (displayApply d loc u now).1.BitrateUnit = u.BitrateUnit := by
  unfold displayApply
  simp only [dFinal_eq, dFps_fst, dSpeed_1_eq, dHeight_1_eq, dWidth_1_eq, dFrames_1_eq,
    dCopy_eq]
  exact ⟨trivial, trivial, trivial, trivial, trivial, trivial, trivial, trivial⟩

lemma dA_FP (d : ProgressData) (loc : DisplayLocals) (u : ProgressUpdate) (now : ℚ) :
    (displayApply d loc u now).1.FramesProcessed =
      if 0 < u.FramesProcessed then u.FramesProcessed else d.FramesProcessed := by
  unfold displayApply
  simp only [dFinal_eq, dFps_fst, dSpeed_1_eq, dHeight_1_eq, dWidth_1_eq, dFrames_1_eq,
    dCopy_eq]

lemma dA_Width (d : ProgressData) (loc : DisplayLocals) (u : ProgressUpdate) (now : ℚ) :
    (displayApply d loc u now).1.Width = if 0 < u.Width then u.Width else d.Width := by
  unfold displayApply
  simp only [dFinal_eq, dFps_fst, dSpeed_1_eq, dHeight_1_eq, dWidth_1_eq, dFrames_1_eq,
    dCopy_eq]

lemma dA_Height (d : ProgressData) (loc : DisplayLocals) (u : ProgressUpdate) (now : ℚ) :
    (displayApply d loc u now).1.Height = if 0 < u.Height then u.Height else d.Height := by
  unfold displayApply
  simp only [dFinal_eq, dFps_fst, dSpeed_1_eq, dHeight_1_eq, dWidth_1_eq, dFrames_1_eq,
    dCopy_eq]

lemma dA_lastFrame (d : ProgressData) (loc : DisplayLocals) (u : ProgressUpdate) (now : ℚ) :
    (displayApply d loc u now).2.lastFrame =
      if 0 < u.FramesProcessed then u.FramesProcessed else loc.lastFrame := by
  unfold displayApply
  simp only [dFinal_eq, dFps_2_lastFrame, dSpeed_2_lastFrame, dHeight_2, dWidth_2_lastFrame,
    dFrames_2_lastFrame, dCopy_eq]

lemma dA_Frames (d : ProgressData) (loc : DisplayLocals) (u : ProgressUpdate) (now : ℚ) :
    (displayApply d loc u now).1.Frames =
      if 0 < u.FramesProcessed then u.FramesProcessed else loc.lastFrame := by
  unfold displayApply
  simp only [dFinal_eq, dFps_2_lastFrame, dSpeed_2_lastFrame, dHeight_2, dWidth_2_lastFrame,
    dFrames_2_lastFrame, dCopy_eq]

lemma dA_lfc_ge (d : ProgressData) (loc : DisplayLocals) (u : ProgressUpdate) (now : ℚ) :
    (displayApply d loc u now).1.FramesProcessed ≤
      (displayApply d loc u now).2.lastFrameCount := by
  unfold displayApply
  simp only [dFinal_eq, dFps_fst]
  exact dFps_2_lfc_ge now _

lemma dA_frozen (d : ProgressData) (loc : DisplayLocals) (u : ProgressUpdate) (now : ℚ)
    (h : (if 0 < u.FramesProcessed then u.FramesProcessed else d.FramesProcessed) ≤
      loc.lastFrameCount) :
    (displayApply d loc u now).2.frameRates = loc.frameRates := by
  have hX : (dSpeed u (dHeight u (dWidth u (dFrames u now
        (dCopy u (d, loc)))))).1.FramesProcessed ≤
      (dSpeed u (dHeight u (dWidth u (dFrames u now (dCopy u (d, loc)))))).2.lastFrameCount := by
    simp only [dSpeed_1_eq, dHeight_1_eq, dWidth_1_eq, dFrames_1_eq, dCopy_eq,
      dSpeed_2_lastFrameCount, dHeight_2, dWidth_2_lastFrameCount, dFrames_2_lastFrameCount]
    exact h
  unfold displayApply
  rw [dFinal_eq]
  dsimp only
  rw [dFps_of_le now _ hX]
  simp only [dSpeed_2_frameRates, dHeight_2, dWidth_2_frameRates, dFrames_2_frameRates,
    dCopy_eq]

/-- C9 counterexample — after a first rate sample of 2.0, processing the
line speed=4.0x once yields a running average of 3; processing the very
same line a second time moves the average to 10/3: the repeated observation
is accumulated, so the update is not idempotent. -/
theorem C9_counterexample :
    cxC.1 = cxB.1 ∧ cxB.2.1.AvgProcessRate = 3 ∧ cxC.2.1.AvgProcessRate = 10 / 3 ∧
    cxC.2.1.AvgProcessRate ≠ cxB.2.1.AvgProcessRate := by
  refine ⟨?_, ?_, ?_, ?_⟩ <;> with_unfolding_all decide

/-- C9 amended — re-consuming the very same update leaves every
ProgressData field unchanged except the running average of processing-rate
samples (which absorbs another sample and moves whenever the sample differs
from the current mean), and adds nothing to the rolling frame-rate window. -/
theorem C9_repeat_update (d : ProgressData) (loc : DisplayLocals) (u : ProgressUpdate)
    (n1 n2 : ℚ) :
    eqExceptAvg
      (displayApply (displayApply d loc u n1).1 (displayApply d loc u n1).2 u n2).1
      (displayApply d loc u n1).1 ∧
    (displayApply (displayApply d loc u n1).1 (displayApply d loc u n1).2 u n2).2.frameRates =
      (displayApply d loc u n1).2.frameRates := by
  obtain ⟨c1, c2, c3, c4, c5, c6, c7, c8⟩ :=
    dA_copy_fields (displayApply d loc u n1).1 (displayApply d loc u n1).2 u n2
  obtain ⟨b1, b2, b3, b4, b5, b6, b7, b8⟩ := dA_copy_fields d loc u n1
  have hfp2 := dA_FP (displayApply d loc u n1).1 (displayApply d loc u n1).2 u n2
  have hfp1 := dA_FP d loc u n1
  have hw2 := dA_Width (displayApply d loc u n1).1 (displayApply d loc u n1).2 u n2
  have hw1 := dA_Width d loc u n1
  have hh2 := dA_Height (displayApply d loc u n1).1 (displayApply d loc u n1).2 u n2
  have hh1 := dA_Height d loc u n1
  have hfr2 := dA_Frames (displayApply d loc u n1).1 (displayApply d loc u n1).2 u n2
  have hfr1 := dA_Frames d loc u n1
  have hlf1 := dA_lastFrame d loc u n1
  have hge1 := dA_lfc_ge d loc u n1
  constructor
  · unfold eqExceptAvg
    refine ⟨c1, ?_, ?_, ?_, ?_, ?_, ?_, ?_, ?_, ?_, ?_, ?_⟩
    · rw [c2, b2]
    · rw [c3, b3]
    · rw [c4, b4]
    · rw [c5, b5]
    · rw [c6, b6]
    · rw [c7, b7]
    · rw [c8, b8]
    · rw [hfp2, hfp1]
      split_ifs <;> rfl
    · rw [hw2, hw1]
      split_ifs <;> rfl
    · rw [hh2, hh1]
      split_ifs <;> rfl
    · rw [hfr2, hfr1, hlf1]
      split_ifs <;> rfl
  · apply dA_frozen
    split_ifs with hf
    · have e : u.FramesProcessed = (displayApply d loc u n1).1.FramesProcessed := by
        rw [hfp1, if_pos hf]
      rw [e]
      exact hge1
    · exact hge1

end GifMaker
